import Mathlib

/-!
Shallow embedding of `src/inspect_ai/util/_limit.py`: the nested limit
machinery (token, message, time, working-time) of inspect_ai.

Numeric modelling: Python `int` values become `Int`; Python `float` time
quantities become exact rationals `ℚ`.  Mutable node state is passed
explicitly: a branch's active chain of limit nodes is an inductive value
whose `parent` links mirror the pointer structure built by `_Tree.push`.
-/

namespace InspectLimits

/-- The closed set of limit kinds, from the `Literal` type tag of
`LimitExceededError.__init__`. -/
inductive LimitKind where
  | token
  | message
  | time
  | working
  | operator
  | custom
deriving DecidableEq, Repr

/-- `LimitExceededError` as constructed at the raise sites: the kind tag, the
measured value, the bound, and the `message` argument passed to the
constructor (the human-readable text built at the raise site).  `cause`
records the exception chained with `raise ... from exc_val` (only the time
limit chains one; every other raise site leaves it `none`). -/
structure LimitError where
  type : LimitKind
  value : ℚ
  limit : ℚ
  message : String
  cause : Option String := none
deriving DecidableEq, Repr

/-- A `SampleLimitEvent` as constructed at the raise sites: every call site
passes exactly the keyword arguments `type`, `limit` and `message`. -/
structure SampleLimitEvent where
  type : LimitKind
  limit : ℚ
  message : String
deriving DecidableEq, Repr

/-- Python `f"{n:,}"` for an integer: decimal digits grouped in threes with
comma separators, and a leading minus sign for negatives. -/
def fmtComma (n : Int) : String :=
  let rev := (toString n.natAbs).toList.reverse
  let grouped := (rev.enum.map fun p =>
    if p.1 ≠ 0 ∧ p.1 % 3 = 0 then [',', p.2] else [p.2]).flatten
  (if n < 0 then "-" else "") ++ String.mk grouped.reverse

/-- Python `f"{x}"` for the float limit values interpolated into the time and
working-time messages.  The repository's tests pass integral values, which
Python prints as plain integers; a non-integral rational is rendered
`num/den` as this embedding's exact stand-in for decimal float repr. -/
def ratPlain (q : ℚ) : String :=
  if q.den = 1 then toString q.num else toString q.num ++ "/" ++ toString q.den

/-- `leadsWith pat s` is true when `pat` is an initial segment of `s`. -/
def leadsWith : List Char → List Char → Bool
  | [], _ => true
  | _ :: _, [] => false
  | p :: ps, c :: cs => p == c && leadsWith ps cs

/-- `occursInList pat s` is true when `pat` appears as a contiguous run
inside `s`. -/
def occursInList (pat : List Char) : List Char → Bool
  | [] => leadsWith pat []
  | c :: cs => leadsWith pat (c :: cs) || occursInList pat cs

/-- Substring test on strings: does `pat` appear contiguously in `s`? -/
def occursIn (pat s : String) : Bool := occursInList pat.toList s.toList

theorem leadsWith_self_append (pat rest : List Char) :
    leadsWith pat (pat ++ rest) = true := by
  induction pat with
  | nil => simp [leadsWith]
  | cons p ps ih => simp [leadsWith, ih]

theorem occursInList_of_leadsWith {pat s : List Char}
    (h : leadsWith pat s = true) : occursInList pat s = true := by
  cases s with
  | nil => simpa [occursInList] using h
  | cons c cs => simp [occursInList, h]

theorem occursInList_append_middle (a pat b : List Char) :
    occursInList pat (a ++ (pat ++ b)) = true := by
  induction a with
  | nil =>
    exact occursInList_of_leadsWith (leadsWith_self_append pat b)
  | cons c a ih => simp [occursInList, ih]

theorem occursIn_append_middle (a pat b : String) :
    occursIn pat (a ++ pat ++ b) = true := by
  have h : (a ++ pat ++ b).toList = a.toList ++ (pat.toList ++ b.toList) := by
    simp [String.toList, String.data_append]
  simp [occursIn, h, occursInList_append_middle]

/-- One node of a per-kind limit tree together with its whole ancestor chain:
`root` is a node whose `parent` pointer is `None`, `child` a node whose
parent is the given (inner-to-outer) chain.  This mirrors `_LimitNode`'s
`parent: Self | None` pointer set once by `_Tree.push`. -/
inductive LNode (α : Type) where
  | root (payload : α)
  | child (payload : α) (parent : LNode α)
deriving DecidableEq, Repr

namespace LNode

/-- The node's own per-kind state. -/
def payload : LNode α → α
  | .root p => p
  | .child p _ => p

/-- The node's `parent` pointer (`None` at the root). -/
def parent : LNode α → Option (LNode α)
  | .root _ => none
  | .child _ par => some par

/-- The payloads of the node and all of its strict ancestors, leaf first. -/
def chain : LNode α → List α
  | .root p => [p]
  | .child p par => p :: chain par

end LNode

/-- The state of one branch's `_Tree[TNode]`: the leaf node of the branch's
active chain, or `none` when no scope of this kind is open. -/
abbrev TreeState (α : Type) := Option (LNode α)

namespace Tree

/-- `_Tree.get`: return the branch's leaf node (or `none`). -/
def current (t : TreeState α) : Option (LNode α) := t

/-- `_Tree.push`: the new node's `parent` is set to the current leaf, and the
new node becomes the leaf. -/
def push (t : TreeState α) (payload : α) : TreeState α :=
  match t with
  | none => some (.root payload)
  | some leaf => some (.child payload leaf)

/-- `_Tree.pop`: raises a `RuntimeError` on an empty branch; otherwise the
leaf becomes the popped node's parent and the popped node is returned. -/
def pop (t : TreeState α) : Except String (LNode α × TreeState α) :=
  match t with
  | none => .error "Limit tree is empty. Cannot pop from an empty tree."
  | some (.root p) => .ok (.root p, none)
  | some (.child p par) => .ok (.child p par, some par)

end Tree

/-- Modelled from the spec: `ModelUsage` (the usage value type supplied to
`record_model_usage`) lives outside this excerpt; the spec describes token
accounting as an additive accumulated-usage total, and the limits code only
reads `total_tokens`. -/
structure ModelUsage where
  totalTokens : Int := 0
deriving DecidableEq, Repr

instance : Add ModelUsage := ⟨fun a b => ⟨a.totalTokens + b.totalTokens⟩⟩

/-- Per-node state of a `_TokenLimitNode`: the node's own accumulated
`_usage` and the live value of the `_LimitValueWrapper` it references. -/
structure TokenPayload where
  usage : ModelUsage
  limit : Option Int
deriving DecidableEq, Repr

/-- The message body built by `_TokenLimitNode._check_self` before raising. -/
def tokenLimitMessage (total lim : Int) : String :=
  "Token limit exceeded. value: " ++ fmtComma total ++ "; limit: " ++ fmtComma lim

/-- `_TokenLimitNode._check_self`: with an unlimited bound, return silently;
otherwise compare the node's own total against the bound, and when the total
strictly exceeds it, emit a `SampleLimitEvent` and raise a
`LimitExceededError` built from this node's own total and bound. -/
def tokenCheckSelf (p : TokenPayload) : Option (SampleLimitEvent × LimitError) :=
  match p.limit with
  | none => none
  | some lim =>
    let total := p.usage.totalTokens
    if lim < total then
      let message := tokenLimitMessage total lim
      some ({ type := .token, limit := (lim : ℚ), message := message },
            { type := .token, value := (total : ℚ), limit := (lim : ℚ),
              message := message, cause := none })
    else none

/-- A `_TokenLimitNode` with its ancestor chain. -/
abbrev TokenNode := LNode TokenPayload

/-- `_TokenLimitNode.record`: add the usage to the parent chain and to this
node's own total (write-through; no bound is consulted). -/
def TokenNode.record : TokenNode → ModelUsage → TokenNode
  | .root p, u => .root { p with usage := p.usage + u }
  | .child p par, u => .child { p with usage := p.usage + u } (TokenNode.record par u)

/-- `_TokenLimitNode.check`: check this node first; a raise propagates
(ancestors are not reached), otherwise recurse into the parent. -/
def TokenNode.check : TokenNode → Option (SampleLimitEvent × LimitError)
  | .root p => tokenCheckSelf p
  | .child p par =>
    match tokenCheckSelf p with
    | some r => some r
    | none => TokenNode.check par

/-- `record_model_usage`: a no-op with no active token scope on the branch,
otherwise record into the branch's leaf node (and, by write-through, all of
its ancestors). -/
def recordModelUsage (t : TreeState TokenPayload) (u : ModelUsage) :
    TreeState TokenPayload :=
  match t with
  | none => none
  | some n => some (TokenNode.record n u)

/-- `check_token_limit`: a no-op with no active token scope, otherwise walk
the branch's chain from the leaf. -/
def checkTokenLimit (t : TreeState TokenPayload) :
    Option (SampleLimitEvent × LimitError) :=
  match t with
  | none => none
  | some n => TokenNode.check n

/-- The `_TokenLimit` handle: owns one `_LimitValueWrapper` cell. -/
structure TokenLimitHandle where
  limitValue : Option Int
deriving DecidableEq, Repr

/-- `_TokenLimit._validate_token_limit`: a present negative value raises
`ValueError`. -/
def validateTokenLimit (value : Option Int) : Except String Unit :=
  match value with
  | some v =>
    if v < 0 then
      .error ("Token limit value must be a non-negative integer or None: "
        ++ toString v)
    else .ok ()
  | none => .ok ()

/-- The `token_limit` factory / `_TokenLimit.__init__`: validate, then wrap
the value. -/
def tokenLimitMake (limit : Option Int) : Except String TokenLimitHandle :=
  match validateTokenLimit limit with
  | .error e => .error e
  | .ok _ => .ok ⟨limit⟩

/-- The `_TokenLimit.limit` setter: validate, then overwrite the shared
wrapper's value (no check is triggered). -/
def TokenLimitHandle.setLimit (h : TokenLimitHandle) (value : Option Int) :
    Except String TokenLimitHandle :=
  match validateTokenLimit value with
  | .error e => .error e
  | .ok _ => .ok { h with limitValue := value }

/-- `_TokenLimit.__enter__`: push a fresh `_TokenLimitNode` (zero usage)
referencing the handle's wrapper.  No reuse guard exists. -/
def tokenLimitEnter (h : TokenLimitHandle) (t : TreeState TokenPayload) :
    TreeState TokenPayload :=
  Tree.push t { usage := {}, limit := h.limitValue }

/-- `_TokenLimit.__exit__`: pop unconditionally, ignoring any propagating
exception. -/
def tokenLimitExit (t : TreeState TokenPayload) (_exc : Option String) :
    Except String (TreeState TokenPayload) :=
  match Tree.pop t with
  | .error e => .error e
  | .ok (_, t') => .ok t'

/-- Per-node state of a `_MessageLimitNode`: only the live value of the
shared bound cell (no running counter). -/
structure MessagePayload where
  limit : Option Int
deriving DecidableEq, Repr

/-- The `reached_or_exceeded` word selected by `_MessageLimitNode.check`. -/
def messageLimitWord (count lim : Int) : String :=
  if count = lim then "reached" else "exceeded"

/-- The message body built by `_MessageLimitNode.check` before raising. -/
def messageLimitMessage (count lim : Int) : String :=
  "Message limit " ++ messageLimitWord count lim ++ ". count: "
    ++ fmtComma count ++ "; limit: " ++ fmtComma lim

/-- `_MessageLimitNode.check`: compare the externally supplied `count`
against this node's bound only (no parent recursion); raise when
`count > limit` or, with `raise_for_equal`, when `count == limit`. -/
def messageNodeCheck (p : MessagePayload) (count : Int) (raiseForEqual : Bool) :
    Option (SampleLimitEvent × LimitError) :=
  match p.limit with
  | none => none
  | some lim =>
    if lim < count ∨ (raiseForEqual ∧ count = lim) then
      let message := messageLimitMessage count lim
      some ({ type := .message, limit := (lim : ℚ), message := message },
            { type := .message, value := (count : ℚ), limit := (lim : ℚ),
              message := message, cause := none })
    else none

/-- `check_message_limit`: a no-op with no active message scope on the
branch, otherwise check the leaf node only. -/
def checkMessageLimit (t : TreeState MessagePayload) (count : Int)
    (raiseForEqual : Bool) : Option (SampleLimitEvent × LimitError) :=
  match t with
  | none => none
  | some leaf => messageNodeCheck leaf.payload count raiseForEqual

/-- The `_MessageLimit` handle: owns one `_LimitValueWrapper` cell. -/
structure MessageLimitHandle where
  limitValue : Option Int
deriving DecidableEq, Repr

/-- `_MessageLimit._validate_message_limit`. -/
def validateMessageLimit (value : Option Int) : Except String Unit :=
  match value with
  | some v =>
    if v < 0 then
      .error ("Message limit value must be a non-negative integer or None: "
        ++ toString v)
    else .ok ()
  | none => .ok ()

/-- The `message_limit` factory / `_MessageLimit.__init__`. -/
def messageLimitMake (limit : Option Int) : Except String MessageLimitHandle :=
  match validateMessageLimit limit with
  | .error e => .error e
  | .ok _ => .ok ⟨limit⟩

/-- The `_MessageLimit.limit` setter. -/
def MessageLimitHandle.setLimit (h : MessageLimitHandle) (value : Option Int) :
    Except String MessageLimitHandle :=
  match validateMessageLimit value with
  | .error e => .error e
  | .ok _ => .ok { h with limitValue := value }

/-- `_MessageLimit.__enter__`: push a fresh `_MessageLimitNode`; no reuse
guard exists in the code. -/
def messageLimitEnter (h : MessageLimitHandle) (t : TreeState MessagePayload) :
    TreeState MessagePayload :=
  Tree.push t { limit := h.limitValue }

/-- `_MessageLimit.__exit__`: pop unconditionally, ignoring any propagating
exception. -/
def messageLimitExit (t : TreeState MessagePayload) (_exc : Option String) :
    Except String (TreeState MessagePayload) :=
  match Tree.pop t with
  | .error e => .error e
  | .ok (_, t') => .ok t'

/-- Per-node state of a `_TimeLimitNode`: the live value of the shared bound
cell, plus the node's `anyio` cancel scope, modelled by whether it is still
armed and whether its deadline has fired (`cancel_called`). -/
structure TimePayload where
  limit : Option ℚ
  armed : Bool
  cancelCalled : Bool
deriving DecidableEq, Repr

/-- The message body built by `_TimeLimitNode.exit` before raising. -/
def timeLimitMessage (lim : ℚ) : String :=
  "Time limit exceeded. limit: " ++ ratPlain lim ++ " seconds"

/-- `_TimeLimitNode.exit`: first exit the cancel scope unconditionally
(disarming the deadline on every path), then, if the deadline fired and the
bound is finite, emit the event and raise a time violation with value and
limit both equal to the bound, chained (`from exc_val`) onto whatever
exception was in flight. -/
def timeNodeExit (p : TimePayload) (excVal : Option String) :
    TimePayload × Option (SampleLimitEvent × LimitError) :=
  let p' := { p with armed := false }
  match p.limit with
  | some lim =>
    if p.cancelCalled then
      let message := timeLimitMessage lim
      (p', some ({ type := .time, limit := lim, message := message },
                 { type := .time, value := lim, limit := lim,
                   message := message, cause := excVal }))
    else (p', none)
  | none => (p', none)

/-- The `_TimeLimit` handle: owns one `_LimitValueWrapper` cell. -/
structure TimeLimitHandle where
  limitValue : Option ℚ
deriving DecidableEq, Repr

/-- `_TimeLimit._validate_time_limit`. -/
def validateTimeLimit (value : Option ℚ) : Except String Unit :=
  match value with
  | some v =>
    if v < 0 then
      .error ("Time limit value must be a non-negative float or None: "
        ++ ratPlain v)
    else .ok ()
  | none => .ok ()

/-- The `time_limit` factory / `_TimeLimit.__init__`. -/
def timeLimitMake (limit : Option ℚ) : Except String TimeLimitHandle :=
  match validateTimeLimit limit with
  | .error e => .error e
  | .ok _ => .ok ⟨limit⟩

/-- `_TimeLimit.__enter__`: push a fresh `_TimeLimitNode`, whose constructor
arms a new cancel scope (`anyio.move_on_after`).  No reuse guard exists in
the code: entering an already-used handle simply pushes another fresh node. -/
def timeLimitEnter (h : TimeLimitHandle) (t : TreeState TimePayload) :
    TreeState TimePayload :=
  Tree.push t { limit := h.limitValue, armed := true, cancelCalled := false }

/-- `_TimeLimit.__exit__`: pop unconditionally, then run the popped node's
`exit` (which disarms the scope and may raise the time violation). -/
def timeLimitExit (t : TreeState TimePayload) (excVal : Option String) :
    Except String (TreeState TimePayload × TimePayload
      × Option (SampleLimitEvent × LimitError)) :=
  match Tree.pop t with
  | .error e => .error e
  | .ok (node, t') =>
    let (p', r) := timeNodeExit node.payload excVal
    .ok (t', p', r)

/-- Per-node state of a `_WorkingTimeLimitNode`: the node's start timestamp,
its accumulated waiting total, and the live value of the shared bound cell. -/
structure WorkingPayload where
  startTime : ℚ
  waitingTime : ℚ
  limit : Option ℚ
deriving DecidableEq, Repr

/-- The message body built by `_WorkingTimeLimitNode._check_self`. -/
def workingLimitMessage (lim : ℚ) : String :=
  "Working time limit exceeded. limit: " ++ ratPlain lim ++ " seconds"

/-- `_WorkingTimeLimitNode._check_self` at clock value `now`: with an
unlimited bound return silently; otherwise compute
`working = now - start_time - waiting_time` and raise (after emitting the
event) when it strictly exceeds the bound, with value the node's own working
time. -/
def workingCheckSelf (now : ℚ) (p : WorkingPayload) :
    Option (SampleLimitEvent × LimitError) :=
  match p.limit with
  | none => none
  | some lim =>
    let workingTime := now - p.startTime - p.waitingTime
    if lim < workingTime then
      let message := workingLimitMessage lim
      some ({ type := .working, limit := lim, message := message },
            { type := .working, value := workingTime, limit := lim,
              message := message, cause := none })
    else none

/-- A `_WorkingTimeLimitNode` with its ancestor chain. -/
abbrev WorkingNode := LNode WorkingPayload

/-- `_WorkingTimeLimitNode.record_waiting_time`: add to the parent chain and
to this node's own waiting accumulator (write-through; no bound consulted). -/
def WorkingNode.recordWaiting : WorkingNode → ℚ → WorkingNode
  | .root p, w => .root { p with waitingTime := p.waitingTime + w }
  | .child p par, w =>
    .child { p with waitingTime := p.waitingTime + w }
      (WorkingNode.recordWaiting par w)

/-- `_WorkingTimeLimitNode.check`: check this node first; a raise propagates
(ancestors are not reached), otherwise recurse into the parent. -/
def WorkingNode.check (now : ℚ) : WorkingNode → Option (SampleLimitEvent × LimitError)
  | .root p => workingCheckSelf now p
  | .child p par =>
    match workingCheckSelf now p with
    | some r => some r
    | none => WorkingNode.check now par

/-- `record_waiting_time`: a no-op with no active working-time scope on the
branch, otherwise record into the branch's leaf node. -/
def recordWaitingTime (t : TreeState WorkingPayload) (w : ℚ) :
    TreeState WorkingPayload :=
  match t with
  | none => none
  | some n => some (WorkingNode.recordWaiting n w)

/-- `check_working_time_limit` at clock value `now`. -/
def checkWorkingTimeLimit (now : ℚ) (t : TreeState WorkingPayload) :
    Option (SampleLimitEvent × LimitError) :=
  match t with
  | none => none
  | some n => WorkingNode.check now n

/-- The `_WorkingTimeLimit` handle: owns one `_LimitValueWrapper` cell. -/
structure WorkingLimitHandle where
  limitValue : Option ℚ
deriving DecidableEq, Repr

/-- `_WorkingTimeLimit._validate_time_limit`. -/
def validateWorkingLimit (value : Option ℚ) : Except String Unit :=
  match value with
  | some v =>
    if v < 0 then
      .error ("Working time limit value must be a non-negative float or None: "
        ++ ratPlain v)
    else .ok ()
  | none => .ok ()

/-- The `working_time_limit` factory / `_WorkingTimeLimit.__init__`. -/
def workingLimitMake (limit : Option ℚ) : Except String WorkingLimitHandle :=
  match validateWorkingLimit limit with
  | .error e => .error e
  | .ok _ => .ok ⟨limit⟩

/-- `_WorkingTimeLimit.__enter__` at clock value `now`: push a fresh
`_WorkingTimeLimitNode` stamped with `now` and zero waiting time. -/
def workingLimitEnter (h : WorkingLimitHandle) (now : ℚ)
    (t : TreeState WorkingPayload) : TreeState WorkingPayload :=
  Tree.push t { startTime := now, waitingTime := 0, limit := h.limitValue }

/-- `_WorkingTimeLimit.__exit__`: pop unconditionally, ignoring any
propagating exception. -/
def workingLimitExit (t : TreeState WorkingPayload) (_exc : Option String) :
    Except String (TreeState WorkingPayload) :=
  match Tree.pop t with
  | .error e => .error e
  | .ok (_, t') => .ok t'

/-! ## Theorems -/

/-- C7: for every tree state and payload, `push` creates a node whose
`parent` pointer is the previous leaf and makes it the leaf; a subsequent
`pop` returns exactly that node and restores the leaf to its pre-push value;
and `pop` on an empty branch raises the fatal `RuntimeError` instead of
returning. -/
theorem tree_push_pop_inverse (α : Type) (t : TreeState α) (a : α) :
    (∃ n : LNode α, Tree.push t a = some n ∧ n.payload = a ∧ n.parent = t ∧
        Tree.current (Tree.push t a) = some n ∧
        Tree.pop (Tree.push t a) = .ok (n, t)) ∧
    Tree.pop (none : TreeState α) =
      .error "Limit tree is empty. Cannot pop from an empty tree." := by
  refine ⟨?_, rfl⟩
  cases t with
  | none => exact ⟨.root a, rfl, rfl, rfl, rfl, rfl⟩
  | some leaf => exact ⟨.child a leaf, rfl, rfl, rfl, rfl, rfl⟩

/-- C10: for every limit kind, exiting the context manager pops the branch's
leaf unconditionally and ignores any propagating exception, so after an
enter/exit pair the leaf pointer equals exactly its pre-enter value; the
resulting tree state never depends on the exception argument. -/
theorem exit_restores_leaf_unconditionally (exc exc' : Option String) :
    (∀ (h : TokenLimitHandle) (t : TreeState TokenPayload),
        tokenLimitExit (tokenLimitEnter h t) exc = .ok t) ∧
    (∀ (h : MessageLimitHandle) (t : TreeState MessagePayload),
        messageLimitExit (messageLimitEnter h t) exc = .ok t) ∧
    (∀ (h : WorkingLimitHandle) (now : ℚ) (t : TreeState WorkingPayload),
        workingLimitExit (workingLimitEnter h now t) exc = .ok t) ∧
    (∀ (h : TimeLimitHandle) (t : TreeState TimePayload),
        ∃ p r, timeLimitExit (timeLimitEnter h t) exc = .ok (t, p, r)) ∧
    (∀ t : TreeState TokenPayload,
        tokenLimitExit t exc = tokenLimitExit t exc') ∧
    (∀ t : TreeState MessagePayload,
        messageLimitExit t exc = messageLimitExit t exc') ∧
    (∀ t : TreeState WorkingPayload,
        workingLimitExit t exc = workingLimitExit t exc') ∧
    (∀ t : TreeState TimePayload,
        (timeLimitExit t exc).map (·.1) = (timeLimitExit t exc').map (·.1)) := by
  refine ⟨fun h t => ?_, fun h t => ?_, fun h now t => ?_, fun h t => ?_,
    fun t => rfl, fun t => rfl, fun t => rfl, fun t => ?_⟩
  · cases t <;> rfl
  · cases t <;> rfl
  · cases t <;> rfl
  · rcases hx : timeNodeExit { limit := h.limitValue, armed := true, cancelCalled := false } exc with ⟨p1, r1⟩
    refine ⟨p1, r1, ?_⟩
    cases t with
    | none =>
      simp [timeLimitExit, timeLimitEnter, Tree.push, Tree.pop, LNode.payload, hx]
    | some leaf =>
      simp [timeLimitExit, timeLimitEnter, Tree.push, Tree.pop, LNode.payload, hx]
  · cases t with
    | none => rfl
    | some node =>
      rcases hx : timeNodeExit node.payload exc with ⟨p1, r1⟩
      rcases hx' : timeNodeExit node.payload exc' with ⟨p2, r2⟩
      cases node <;> simp_all [timeLimitExit, Tree.pop, Except.map]

/-- Relabel every bound along a token chain (the recorded usage is
untouched); used to state that recording never consults any bound. -/
def TokenNode.mapLimit (f : Option Int → Option Int) : TokenNode → TokenNode
  | .root p => .root { p with limit := f p.limit }
  | .child p par => .child { p with limit := f p.limit } (TokenNode.mapLimit f par)

/-- Relabel every bound along a working-time chain. -/
def WorkingNode.mapLimit (g : Option ℚ → Option ℚ) : WorkingNode → WorkingNode
  | .root p => .root { p with limit := g p.limit }
  | .child p par => .child { p with limit := g p.limit } (WorkingNode.mapLimit g par)

/-- C3: `record` adds the usage to the node's own total and to every strict
ancestor's total, and `record_waiting_time` adds the seconds to the node's
own waiting accumulator and every strict ancestor's; recording is purely
additive bookkeeping — it commutes with arbitrary relabelling of every bound,
so it never consults a bound, and it has no raising path at all. -/
theorem record_write_through (n : TokenNode) (u : ModelUsage)
    (m : WorkingNode) (w : ℚ)
    (f : Option Int → Option Int) (g : Option ℚ → Option ℚ) :
    (TokenNode.record n u).chain
        = n.chain.map (fun p => { p with usage := p.usage + u }) ∧
    (WorkingNode.recordWaiting m w).chain
        = m.chain.map (fun p => { p with waitingTime := p.waitingTime + w }) ∧
    TokenNode.record (TokenNode.mapLimit f n) u
        = TokenNode.mapLimit f (TokenNode.record n u) ∧
    WorkingNode.recordWaiting (WorkingNode.mapLimit g m) w
        = WorkingNode.mapLimit g (WorkingNode.recordWaiting m w) := by
  refine ⟨?_, ?_, ?_, ?_⟩
  · induction n with
    | root p => rfl
    | child p par ih => simp [TokenNode.record, LNode.chain, ih]
  · induction m with
    | root p => rfl
    | child p par ih => simp [WorkingNode.recordWaiting, LNode.chain, ih]
  · induction n with
    | root p => rfl
    | child p par ih => simp [TokenNode.record, TokenNode.mapLimit, ih]
  · induction m with
    | root p => rfl
    | child p par ih =>
      simp [WorkingNode.recordWaiting, WorkingNode.mapLimit, ih]

/-- A token node's own total strictly exceeds its own (finite) bound. -/
def tokenViolates (p : TokenPayload) : Bool :=
  match p.limit with
  | none => false
  | some lim => decide (lim < p.usage.totalTokens)

theorem tokenCheckSelf_eq_none_iff (p : TokenPayload) :
    tokenCheckSelf p = none ↔ tokenViolates p = false := by
  unfold tokenCheckSelf tokenViolates
  cases hl : p.limit with
  | none => simp
  | some lim =>
    by_cases h : lim < p.usage.totalTokens <;> simp [h]

theorem tokenCheckSelf_of_violates {p : TokenPayload} {lim : Int}
    (hl : p.limit = some lim) (hv : tokenViolates p = true) :
    tokenCheckSelf p =
      some ({ type := .token, limit := (lim : ℚ),
              message := tokenLimitMessage p.usage.totalTokens lim },
            { type := .token, value := (p.usage.totalTokens : ℚ),
              limit := (lim : ℚ),
              message := tokenLimitMessage p.usage.totalTokens lim,
              cause := none }) := by
  unfold tokenViolates at hv
  rw [hl] at hv
  simp only [decide_eq_true_eq] at hv
  unfold tokenCheckSelf
  rw [hl]
  simp [hv]

/-- C1: checking a token chain walks it leaf first, evaluating each node's
own total against its own bound.  The check is silent exactly when every
node in the chain passes; otherwise the first (nearest) violating node
determines the whole outcome — the raised violation carries that node's own
total as value and that node's own bound as limit, and nothing beyond that
node influences the result. -/
theorem token_check_walk (n : TokenNode) :
    (TokenNode.check n = none ↔ ∀ p ∈ n.chain, tokenViolates p = false) ∧
    (∀ p lim, n.chain.find? tokenViolates = some p → p.limit = some lim →
      TokenNode.check n =
        some ({ type := .token, limit := (lim : ℚ),
                message := tokenLimitMessage p.usage.totalTokens lim },
              { type := .token, value := (p.usage.totalTokens : ℚ),
                limit := (lim : ℚ),
                message := tokenLimitMessage p.usage.totalTokens lim,
                cause := none })) := by
  induction n with
  | root p =>
    constructor
    · simp [TokenNode.check, LNode.chain, tokenCheckSelf_eq_none_iff]
    · intro q lim hf hl
      cases hv : tokenViolates p with
      | false => simp [List.find?, LNode.chain, hv] at hf
      | true =>
        simp [List.find?, LNode.chain, hv] at hf
        subst hf
        simpa [TokenNode.check] using tokenCheckSelf_of_violates hl hv
  | child p par ih =>
    cases hv : tokenViolates p with
    | false =>
      have hc : tokenCheckSelf p = none := (tokenCheckSelf_eq_none_iff p).mpr hv
      constructor
      · simp [TokenNode.check, LNode.chain, hc, hv, ih.1]
      · intro q lim hf hl
        rw [LNode.chain, List.find?_cons_of_neg _ (by simp [hv])] at hf
        simp only [TokenNode.check, hc]
        exact ih.2 q lim hf hl
    | true =>
      have hc : tokenCheckSelf p ≠ none := by
        simp [Ne, tokenCheckSelf_eq_none_iff, hv]
      obtain ⟨r, hr⟩ : ∃ r, tokenCheckSelf p = some r := by
        cases hcc : tokenCheckSelf p with
        | none => exact absurd hcc hc
        | some r => exact ⟨r, rfl⟩
      constructor
      · constructor
        · intro h
          rw [TokenNode.check, hr] at h
          exact absurd h (by simp)
        · intro h
          have := h p (by simp [LNode.chain])
          rw [this] at hv
          exact absurd hv (by simp)
      · intro q lim hf hl
        rw [LNode.chain, List.find?_cons_of_pos _ hv] at hf
        injection hf with hq
        subst hq
        rw [TokenNode.check, hr]
        rw [tokenCheckSelf_of_violates hl hv] at hr
        injection hr with hr'
        rw [hr']

/-- C1 witness: outer bound 1, inner bound 100, both totals 5 — the inner
node passes, the walk continues, and the outer node raises with its own
total 5 and bound 1. -/
theorem token_check_walk_witness :
    TokenNode.check (.child ⟨⟨5⟩, some 100⟩ (.root ⟨⟨5⟩, some 1⟩)) =
      some ({ type := .token, limit := (1 : ℚ),
              message := tokenLimitMessage 5 1 },
            { type := .token, value := ((5 : Int) : ℚ), limit := (1 : ℚ),
              message := tokenLimitMessage 5 1, cause := none }) :=
  (token_check_walk _).2 ⟨⟨5⟩, some 1⟩ 1 (by decide) rfl

/-- A working-time node's own derived working time strictly exceeds its own
(finite) bound at clock value `now`. -/
def workingViolates (now : ℚ) (p : WorkingPayload) : Bool :=
  match p.limit with
  | none => false
  | some lim => decide (lim < now - p.startTime - p.waitingTime)

theorem workingCheckSelf_eq_none_iff (now : ℚ) (p : WorkingPayload) :
    workingCheckSelf now p = none ↔ workingViolates now p = false := by
  unfold workingCheckSelf workingViolates
  cases hl : p.limit with
  | none => simp
  | some lim =>
    by_cases h : lim < now - p.startTime - p.waitingTime <;> simp [h]

theorem workingCheckSelf_of_violates {now : ℚ} {p : WorkingPayload} {lim : ℚ}
    (hl : p.limit = some lim) (hv : workingViolates now p = true) :
    workingCheckSelf now p =
      some ({ type := .working, limit := lim,
              message := workingLimitMessage lim },
            { type := .working, value := now - p.startTime - p.waitingTime,
              limit := lim, message := workingLimitMessage lim,
              cause := none }) := by
  unfold workingViolates at hv
  rw [hl] at hv
  simp only [decide_eq_true_eq] at hv
  unfold workingCheckSelf
  rw [hl]
  simp [hv]

/-- C2: checking a working-time chain at clock value `now` computes, for
each node, `working = now - start_time - waiting_total` from that node's own
stamps, walking leaf first; the check is silent exactly when every node
passes, and otherwise the first violating node determines the outcome, with
value that node's own working time and limit that node's own bound,
ancestors beyond it never influencing the result. -/
theorem working_check_walk (now : ℚ) (n : WorkingNode) :
    (WorkingNode.check now n = none ↔
        ∀ p ∈ n.chain, workingViolates now p = false) ∧
    (∀ p lim, n.chain.find? (workingViolates now) = some p →
        p.limit = some lim →
      WorkingNode.check now n =
        some ({ type := .working, limit := lim,
                message := workingLimitMessage lim },
              { type := .working,
                value := now - p.startTime - p.waitingTime,
                limit := lim, message := workingLimitMessage lim,
                cause := none })) := by
  induction n with
  | root p =>
    constructor
    · simp [WorkingNode.check, LNode.chain, workingCheckSelf_eq_none_iff]
    · intro q lim hf hl
      cases hv : workingViolates now p with
      | false => simp [List.find?, LNode.chain, hv] at hf
      | true =>
        simp [List.find?, LNode.chain, hv] at hf
        subst hf
        simpa [WorkingNode.check] using workingCheckSelf_of_violates hl hv
  | child p par ih =>
    cases hv : workingViolates now p with
    | false =>
      have hc : workingCheckSelf now p = none :=
        (workingCheckSelf_eq_none_iff now p).mpr hv
      constructor
      · simp [WorkingNode.check, LNode.chain, hc, hv, ih.1]
      · intro q lim hf hl
        rw [LNode.chain, List.find?_cons_of_neg _ (by simp [hv])] at hf
        simp only [WorkingNode.check, hc]
        exact ih.2 q lim hf hl
    | true =>
      have hc : workingCheckSelf now p ≠ none := by
        simp [Ne, workingCheckSelf_eq_none_iff, hv]
      obtain ⟨r, hr⟩ : ∃ r, workingCheckSelf now p = some r := by
        cases hcc : workingCheckSelf now p with
        | none => exact absurd hcc hc
        | some r => exact ⟨r, rfl⟩
      constructor
      · constructor
        · intro h
          rw [WorkingNode.check, hr] at h
          exact absurd h (by simp)
        · intro h
          have := h p (by simp [LNode.chain])
          rw [this] at hv
          exact absurd hv (by simp)
      · intro q lim hf hl
        rw [LNode.chain, List.find?_cons_of_pos _ hv] at hf
        injection hf with hq
        subst hq
        rw [WorkingNode.check, hr]
        rw [workingCheckSelf_of_violates hl hv] at hr
        injection hr with hr'
        rw [hr']

/-- C2 witness: inner node (bound 10) passes at `now = 2`, the walk
continues, and the outer node (bound 1, same stamps) raises with its own
working time 2 and bound 1. -/
theorem working_check_walk_witness :
    WorkingNode.check 2
        (.child ⟨0, 0, some 10⟩ (.root ⟨0, 0, some 1⟩)) =
      some ({ type := .working, limit := 1,
              message := workingLimitMessage 1 },
            { type := .working, value := 2 - 0 - 0, limit := 1,
              message := workingLimitMessage 1, cause := none }) :=
  (working_check_walk 2 _).2 ⟨0, 0, some 1⟩ 1 (by norm_num [List.find?, workingViolates]) rfl

/-- C4: releasing a time scope disarms its cancel scope on every exit path,
including while another exception is propagating; it raises exactly when the
deadline fired and the bound is finite, and then the violation carries value
and limit both equal to the bound and is chained onto the in-flight
exception; when the deadline did not fire, release raises nothing. -/
theorem time_release (p : TimePayload) (exc : Option String) :
    (timeNodeExit p exc).1 = { p with armed := false } ∧
    ((timeNodeExit p exc).2 = none ↔
        ¬(p.cancelCalled = true ∧ p.limit ≠ none)) ∧
    (∀ lim, p.limit = some lim → p.cancelCalled = true →
      (timeNodeExit p exc).2 =
        some ({ type := .time, limit := lim, message := timeLimitMessage lim },
              { type := .time, value := lim, limit := lim,
                message := timeLimitMessage lim, cause := exc })) := by
  unfold timeNodeExit
  cases hl : p.limit with
  | none => cases hc : p.cancelCalled <;> simp [hl, hc]
  | some lim => cases hc : p.cancelCalled <;> simp [hl, hc]

/-- C4 witness: a fired deadline with bound 1 and an in-flight cancellation:
the scope comes back disarmed and the raised violation has value = limit = 1
chained onto the in-flight exception; with the deadline not fired, release
raises nothing. -/
theorem time_release_witness :
    (timeNodeExit ⟨some 1, true, true⟩ (some "CancelledError")).1.armed
        = false ∧
    (timeNodeExit ⟨some 1, true, true⟩ (some "CancelledError")).2 =
      some ({ type := .time, limit := 1, message := timeLimitMessage 1 },
            { type := .time, value := 1, limit := 1,
              message := timeLimitMessage 1,
              cause := some "CancelledError" }) ∧
    (timeNodeExit ⟨some 1, true, false⟩ none).2 = none := by
  refine ⟨?_, ?_, ?_⟩
  · rw [(time_release ⟨some 1, true, true⟩ (some "CancelledError")).1]
  · exact (time_release ⟨some 1, true, true⟩ (some "CancelledError")).2.2
      1 rfl rfl
  · exact ((time_release ⟨some 1, true, false⟩ none).2.1).mpr (by simp)

/-- C5: the global message check consults only the branch's nearest active
node — replacing the whole ancestor chain changes nothing; against that
node's bound, strict mode raises at equality (word "reached") as well as
above it, non-strict mode raises only strictly above the bound (word
"exceeded"), and the violation carries value = count and limit = bound. -/
theorem message_check_nearest (p : MessagePayload) (par : LNode MessagePayload)
    (count : Int) (strict : Bool) :
    checkMessageLimit (some (.child p par)) count strict
        = checkMessageLimit (some (.root p)) count strict ∧
    (∀ lim, p.limit = some lim →
      ((messageNodeCheck p count strict = none ↔
          ¬(lim < count ∨ (strict = true ∧ count = lim))) ∧
       ((lim < count ∨ (strict = true ∧ count = lim)) →
         messageNodeCheck p count strict =
           some ({ type := .message, limit := (lim : ℚ),
                   message := messageLimitMessage count lim },
                 { type := .message, value := (count : ℚ), limit := (lim : ℚ),
                   message := messageLimitMessage count lim,
                   cause := none })) ∧
       (count = lim → messageLimitWord count lim = "reached") ∧
       (count ≠ lim → messageLimitWord count lim = "exceeded"))) := by
  constructor
  · rfl
  · intro lim hl
    refine ⟨?_, ?_, ?_, ?_⟩
    · unfold messageNodeCheck
      rw [hl]
      by_cases h : lim < count ∨ (strict = true ∧ count = lim) <;> simp [h]
    · intro h
      unfold messageNodeCheck
      rw [hl]
      simp [h]
    · intro h
      simp [messageLimitWord, h]
    · intro h
      simp [messageLimitWord, h]

/-- C5 witness: bound 3 with strict mode at count 3 raises "reached" with
value 3 and limit 3; non-strict at count 3 is silent; ancestors are never
consulted (an outer bound 1 under an inner bound 100 stays silent at
count 5). -/
theorem message_check_nearest_witness :
    messageNodeCheck ⟨some 3⟩ 3 true =
      some ({ type := .message, limit := (3 : ℚ),
              message := messageLimitMessage 3 3 },
            { type := .message, value := ((3 : Int) : ℚ), limit := (3 : ℚ),
              message := messageLimitMessage 3 3, cause := none }) ∧
    messageNodeCheck ⟨some 3⟩ 3 false = none ∧
    checkMessageLimit (some (.child ⟨some 100⟩ (.root ⟨some 1⟩))) 5 false
        = checkMessageLimit (some (.root ⟨some 100⟩)) 5 false ∧
    checkMessageLimit (some (.root ⟨some 100⟩)) 5 false = none := by
  refine ⟨?_, ?_, ?_, ?_⟩
  · exact ((message_check_nearest ⟨some 3⟩ (.root ⟨some 3⟩) 3 true).2 3
      rfl).2.1 (Or.inr ⟨rfl, rfl⟩)
  · exact ((message_check_nearest ⟨some 3⟩ (.root ⟨some 3⟩) 3 false).2 3
      rfl).1.mpr (by decide)
  · exact (message_check_nearest ⟨some 100⟩ (.root ⟨some 1⟩) 5 false).1
  · exact ((message_check_nearest ⟨some 100⟩ (.root ⟨some 100⟩) 5
      false).2 100 rfl).1.mpr (by decide)

/-- C6 (code evaluated at the failing input): `_TimeLimit.__enter__` and
`_MessageLimit.__enter__` contain no single-use guard, so acquiring an
already-acquired handle instance — nested directly inside its own open scope,
exactly the shape of `test_enter_context_manager_multiple_times_nested` —
succeeds and simply pushes a second fresh node, where the repository's own
tests require a fatal `RuntimeError`.  Sequential reuse after release
likewise succeeds, leaving a single fresh node. -/
theorem time_and_message_handle_reuse_not_rejected :
    timeLimitMake (some 1) = .ok ⟨some 1⟩ ∧
    timeLimitEnter ⟨some 1⟩ (timeLimitEnter ⟨some 1⟩ none) =
      some (.child ⟨some 1, true, false⟩ (.root ⟨some 1, true, false⟩)) ∧
    timeLimitExit (timeLimitEnter ⟨some 1⟩ none) none =
      .ok (none, ⟨some 1, false, false⟩, none) ∧
    timeLimitEnter ⟨some 1⟩ none = some (.root ⟨some 1, true, false⟩) ∧
    messageLimitMake (some 1) = .ok ⟨some 1⟩ ∧
    messageLimitEnter ⟨some 1⟩ (messageLimitEnter ⟨some 1⟩ none) =
      some (.child ⟨some 1⟩ (.root ⟨some 1⟩)) := by
  exact ⟨rfl, rfl, rfl, rfl, rfl, rfl⟩

/-- C8: every limit kind rejects a negative finite bound at construction and
at every mutation path the code exposes (the token and message setters; time
and working-time handles expose none), always accepts an unlimited bound,
and a node whose bound is unlimited never raises from any check, whatever
the measurement. -/
theorem bound_validation :
    (∀ v : Int, v < 0 →
      tokenLimitMake (some v) =
        .error ("Token limit value must be a non-negative integer or None: "
          ++ toString v) ∧
      messageLimitMake (some v) =
        .error ("Message limit value must be a non-negative integer or None: "
          ++ toString v) ∧
      (∀ h : TokenLimitHandle, h.setLimit (some v) =
        .error ("Token limit value must be a non-negative integer or None: "
          ++ toString v)) ∧
      (∀ h : MessageLimitHandle, h.setLimit (some v) =
        .error ("Message limit value must be a non-negative integer or None: "
          ++ toString v))) ∧
    (∀ q : ℚ, q < 0 →
      timeLimitMake (some q) =
        .error ("Time limit value must be a non-negative float or None: "
          ++ ratPlain q) ∧
      workingLimitMake (some q) =
        .error ("Working time limit value must be a non-negative float or None: "
          ++ ratPlain q)) ∧
    (tokenLimitMake none = .ok ⟨none⟩ ∧ messageLimitMake none = .ok ⟨none⟩ ∧
     timeLimitMake none = .ok ⟨none⟩ ∧ workingLimitMake none = .ok ⟨none⟩ ∧
     (∀ h : TokenLimitHandle, h.setLimit none = .ok ⟨none⟩) ∧
     (∀ h : MessageLimitHandle, h.setLimit none = .ok ⟨none⟩)) ∧
    (∀ p : TokenPayload, p.limit = none → tokenCheckSelf p = none) ∧
    (∀ (p : MessagePayload) (count : Int) (strict : Bool), p.limit = none →
        messageNodeCheck p count strict = none) ∧
    (∀ (p : TimePayload) (exc : Option String), p.limit = none →
        (timeNodeExit p exc).2 = none) ∧
    (∀ (p : WorkingPayload) (now : ℚ), p.limit = none →
        workingCheckSelf now p = none) := by
  refine ⟨?_, ?_, ⟨rfl, rfl, rfl, rfl, fun h => rfl, fun h => rfl⟩,
    ?_, ?_, ?_, ?_⟩
  · intro v hv
    refine ⟨?_, ?_, fun h => ?_, fun h => ?_⟩ <;>
      simp [tokenLimitMake, messageLimitMake, TokenLimitHandle.setLimit,
        MessageLimitHandle.setLimit, validateTokenLimit,
        validateMessageLimit, hv]
  · intro q hq
    refine ⟨?_, ?_⟩ <;>
      simp [timeLimitMake, workingLimitMake, validateTimeLimit,
        validateWorkingLimit, hq]
  · intro p hl
    simp [tokenCheckSelf, hl]
  · intro p count strict hl
    simp [messageNodeCheck, hl]
  · intro p exc hl
    simp [timeNodeExit, hl]
  · intro p now hl
    simp [workingCheckSelf, hl]

/-- C8 witness: the bound -1 is rejected by construction and by the token
setter, unlimited bounds are accepted everywhere, and an unlimited token
node stays silent at a one-million-token total. -/
theorem bound_validation_witness :
    tokenLimitMake (some (-1)) =
      .error "Token limit value must be a non-negative integer or None: -1" ∧
    TokenLimitHandle.setLimit ⟨some 5⟩ (some (-1)) =
      .error "Token limit value must be a non-negative integer or None: -1" ∧
    timeLimitMake (some (-1)) =
      .error "Time limit value must be a non-negative float or None: -1" ∧
    tokenLimitMake none = .ok ⟨none⟩ ∧
    tokenCheckSelf ⟨⟨1000000⟩, none⟩ = none := by
  refine ⟨?_, ?_, ?_, ?_, ?_⟩
  · exact ((bound_validation.1 (-1) (by decide)).1)
  · exact ((bound_validation.1 (-1) (by decide)).2.2.1 ⟨some 5⟩)
  · have := (bound_validation.2.1 (-1) (by norm_num)).1
    simpa [ratPlain] using this
  · exact bound_validation.2.2.1.1
  · exact bound_validation.2.2.2.1 ⟨⟨1000000⟩, none⟩ rfl

theorem leadsWith_extend {pat s : List Char} (t : List Char)
    (h : leadsWith pat s = true) : leadsWith pat (s ++ t) = true := by
  induction pat generalizing s with
  | nil => simp [leadsWith]
  | cons p ps ih =>
    cases s with
    | nil => simp [leadsWith] at h
    | cons c cs =>
      simp only [leadsWith, Bool.and_eq_true] at h
      simp [leadsWith, h.1, ih h.2]

theorem occursInList_append_right {pat s : List Char} (t : List Char)
    (h : occursInList pat s = true) : occursInList pat (s ++ t) = true := by
  induction s with
  | nil =>
    simp only [occursInList] at h
    exact occursInList_of_leadsWith (leadsWith_extend t h)
  | cons c cs ih =>
    simp only [occursInList, Bool.or_eq_true] at h ⊢
    rcases h with h | h
    · exact Or.inl (leadsWith_extend t h)
    · exact Or.inr (ih h)

theorem occursInList_append_left {pat : List Char} (s : List Char)
    {t : List Char} (h : occursInList pat t = true) :
    occursInList pat (s ++ t) = true := by
  induction s with
  | nil => simpa using h
  | cons c cs ih => simp [occursInList, ih]

theorem occursIn_append_right {pat s : String} (t : String)
    (h : occursIn pat s = true) : occursIn pat (s ++ t) = true := by
  have hl : (s ++ t).toList = s.toList ++ t.toList := by
    simp [String.toList, String.data_append]
  rw [occursIn, hl]
  exact occursInList_append_right _ h

theorem occursIn_append_left {pat : String} (s : String) {t : String}
    (h : occursIn pat t = true) : occursIn pat (s ++ t) = true := by
  have hl : (s ++ t).toList = s.toList ++ t.toList := by
    simp [String.toList, String.data_append]
  rw [occursIn, hl]
  exact occursInList_append_left _ h

theorem occursIn_self (pat : String) : occursIn pat pat = true := by
  rw [occursIn]
  exact occursInList_of_leadsWith (by simpa using leadsWith_self_append pat.toList [])

theorem tokenMessage_embeds (total lim : Int) :
    occursIn "Token limit exceeded" (tokenLimitMessage total lim) = true ∧
    occursIn (fmtComma total) (tokenLimitMessage total lim) = true ∧
    occursIn (fmtComma lim) (tokenLimitMessage total lim) = true := by
  rw [tokenLimitMessage]
  refine ⟨?_, ?_, ?_⟩
  · exact occursIn_append_right _ (occursIn_append_right _
      (occursIn_append_right _ (by decide)))
  · exact occursIn_append_right _ (occursIn_append_right _
      (occursIn_append_left _ (occursIn_self _)))
  · exact occursIn_append_left _ (occursIn_self _)

theorem messageMessage_embeds (count lim : Int) :
    occursIn "Message limit" (messageLimitMessage count lim) = true ∧
    occursIn (fmtComma count) (messageLimitMessage count lim) = true ∧
    occursIn (fmtComma lim) (messageLimitMessage count lim) = true := by
  rw [messageLimitMessage]
  refine ⟨?_, ?_, ?_⟩
  · exact occursIn_append_right _ (occursIn_append_right _
      (occursIn_append_right _ (occursIn_append_right _
        (occursIn_append_right _ (by decide)))))
  · exact occursIn_append_right _ (occursIn_append_right _
      (occursIn_append_left _ (occursIn_self _)))
  · exact occursIn_append_left _ (occursIn_self _)

theorem timeMessage_embeds (lim : ℚ) :
    occursIn "Time limit exceeded" (timeLimitMessage lim) = true ∧
    occursIn (ratPlain lim) (timeLimitMessage lim) = true := by
  rw [timeLimitMessage]
  exact ⟨occursIn_append_right _ (occursIn_append_right _ (by decide)),
    occursIn_append_right _ (occursIn_append_left _ (occursIn_self _))⟩

theorem workingMessage_embeds (lim : ℚ) :
    occursIn "Working time limit exceeded" (workingLimitMessage lim) = true ∧
    occursIn (ratPlain lim) (workingLimitMessage lim) = true := by
  rw [workingLimitMessage]
  exact ⟨occursIn_append_right _ (occursIn_append_right _ (by decide)),
    occursIn_append_right _ (occursIn_append_left _ (occursIn_self _))⟩

/-- C9 counterexample: at a working-time node with bound 1 and working time
5, the check raises a violation whose measured value is 5, yet the message
(both the one in the audit event and the one handed to the error) is
`"Working time limit exceeded. limit: 1 seconds"`, in which the decimal
representation of the measured value 5 never occurs — so the message does
not embed the measured value, and the audit event (constructed from exactly
`type`, `limit` and `message`) does not carry it either. -/
theorem working_violation_message_omits_value :
    workingCheckSelf 5 ⟨0, 0, some 1⟩ =
      some ({ type := .working, limit := 1,
              message := "Working time limit exceeded. limit: 1 seconds" },
            { type := .working, value := 5, limit := 1,
              message := "Working time limit exceeded. limit: 1 seconds",
              cause := none }) ∧
    occursIn "5" "Working time limit exceeded. limit: 1 seconds" = false := by
  constructor
  · have h5 : (5 : ℚ) - 0 - 0 = 5 := by norm_num
    have hmsg : workingLimitMessage 1 =
        "Working time limit exceeded. limit: 1 seconds" := by decide
    rw [workingCheckSelf]
    simp only [h5, hmsg]
    norm_num
  · decide

/-- C9 (amended): every violation's message embeds the kind and the bound;
token and message violations additionally embed the measured value, while
the time and working-time messages omit it (for time the value happens to
equal the bound); the audit event emitted immediately before each raise
carries the kind, the bound and that same message — the measured value is
not among the event's fields — and an event is produced exactly when a
violation is raised (they arise as one pair). -/
theorem violation_reporting_amended :
    (∀ (p : TokenPayload) (ev : SampleLimitEvent) (err : LimitError)
        (lim : Int), tokenCheckSelf p = some (ev, err) → p.limit = some lim →
      ev.type = .token ∧ err.type = .token ∧ ev.limit = err.limit ∧
      ev.message = err.message ∧ err.value = (p.usage.totalTokens : ℚ) ∧
      err.limit = (lim : ℚ) ∧
      occursIn "Token limit exceeded" err.message = true ∧
      occursIn (fmtComma p.usage.totalTokens) err.message = true ∧
      occursIn (fmtComma lim) err.message = true) ∧
    (∀ (p : MessagePayload) (count : Int) (strict : Bool)
        (ev : SampleLimitEvent) (err : LimitError) (lim : Int),
      messageNodeCheck p count strict = some (ev, err) → p.limit = some lim →
      ev.type = .message ∧ err.type = .message ∧ ev.limit = err.limit ∧
      ev.message = err.message ∧ err.value = (count : ℚ) ∧
      err.limit = (lim : ℚ) ∧
      occursIn "Message limit" err.message = true ∧
      occursIn (fmtComma count) err.message = true ∧
      occursIn (fmtComma lim) err.message = true) ∧
    (∀ (p : TimePayload) (exc : Option String) (ev : SampleLimitEvent)
        (err : LimitError) (lim : ℚ),
      (timeNodeExit p exc).2 = some (ev, err) → p.limit = some lim →
      ev.type = .time ∧ err.type = .time ∧ ev.limit = err.limit ∧
      ev.message = err.message ∧ err.value = err.limit ∧ err.limit = lim ∧
      occursIn "Time limit exceeded" err.message = true ∧
      occursIn (ratPlain lim) err.message = true) ∧
    (∀ (now : ℚ) (p : WorkingPayload) (ev : SampleLimitEvent)
        (err : LimitError) (lim : ℚ),
      workingCheckSelf now p = some (ev, err) → p.limit = some lim →
      ev.type = .working ∧ err.type = .working ∧ ev.limit = err.limit ∧
      ev.message = err.message ∧
      err.value = now - p.startTime - p.waitingTime ∧ err.limit = lim ∧
      occursIn "Working time limit exceeded" err.message = true ∧
      occursIn (ratPlain lim) err.message = true) := by
  refine ⟨?_, ?_, ?_, ?_⟩
  · intro p ev err lim hsome hl
    have hv : tokenViolates p = true := by
      cases hvv : tokenViolates p with
      | true => rfl
      | false =>
        rw [(tokenCheckSelf_eq_none_iff p).mpr hvv] at hsome
        exact absurd hsome (by simp)
    rw [tokenCheckSelf_of_violates hl hv] at hsome
    simp only [Option.some.injEq, Prod.mk.injEq] at hsome
    obtain ⟨hev, herr⟩ := hsome
    subst hev herr
    have he := tokenMessage_embeds p.usage.totalTokens lim
    exact ⟨rfl, rfl, rfl, rfl, rfl, rfl, he.1, he.2.1, he.2.2⟩
  · intro p count strict ev err lim hsome hl
    simp only [messageNodeCheck, hl] at hsome
    by_cases hcond : lim < count ∨ (strict = true ∧ count = lim)
    · rw [if_pos hcond] at hsome
      simp only [Option.some.injEq, Prod.mk.injEq] at hsome
      obtain ⟨hev, herr⟩ := hsome
      subst hev herr
      have he := messageMessage_embeds count lim
      exact ⟨rfl, rfl, rfl, rfl, rfl, rfl, he.1, he.2.1, he.2.2⟩
    · rw [if_neg hcond] at hsome
      exact absurd hsome (by simp)
  · intro p exc ev err lim hsome hl
    simp only [timeNodeExit, hl] at hsome
    cases hc : p.cancelCalled with
    | false => rw [hc] at hsome; exact absurd hsome (by simp)
    | true =>
      rw [hc] at hsome
      simp only [if_true, Option.some.injEq, Prod.mk.injEq] at hsome
      obtain ⟨hev, herr⟩ := hsome
      subst hev herr
      have he := timeMessage_embeds lim
      exact ⟨rfl, rfl, rfl, rfl, rfl, rfl, he.1, he.2⟩
  · intro now p ev err lim hsome hl
    have hv : workingViolates now p = true := by
      cases hvv : workingViolates now p with
      | true => rfl
      | false =>
        rw [(workingCheckSelf_eq_none_iff now p).mpr hvv] at hsome
        exact absurd hsome (by simp)
    rw [workingCheckSelf_of_violates hl hv] at hsome
    simp only [Option.some.injEq, Prod.mk.injEq] at hsome
    obtain ⟨hev, herr⟩ := hsome
    subst hev herr
    have he := workingMessage_embeds lim
    exact ⟨rfl, rfl, rfl, rfl, rfl, rfl, he.1, he.2⟩

/-- C9 amended witness: a token violation at total 10 against bound 8 — both
numbers occur in the message, the event repeats the error's bound and
message, and the error's value is the node's total. -/
theorem violation_reporting_amended_witness :
    occursIn "Token limit exceeded" (tokenLimitMessage 10 8) = true ∧
    occursIn (fmtComma 10) (tokenLimitMessage 10 8) = true ∧
    occursIn (fmtComma 8) (tokenLimitMessage 10 8) = true := by
  have h := violation_reporting_amended.1 ⟨⟨10⟩, some 8⟩
    { type := .token, limit := 8, message := tokenLimitMessage 10 8 }
    { type := .token, value := 10, limit := 8,
      message := tokenLimitMessage 10 8, cause := none }
    8 (by decide) rfl
  exact ⟨h.2.2.2.2.2.2.1, h.2.2.2.2.2.2.2.1, h.2.2.2.2.2.2.2.2⟩

end InspectLimits
